import Mathlib

/-!
Verification of `import_embargo/core.py`: hierarchical policy resolution
(`get_package_config`), prefix matching over allow-lists
(`is_operation_allowed`), path/module translation
(`build_module_from_path`, `build_path_from_import`) and the
two-direction violation check (`check_for_allowed`).

Modelling conventions:
* Python strings are `List Char`; string literals are written `("...").data`.
* `pathlib.Path` values are lists of path components (`List (List Char)`);
  `str(path)` is the components joined with `/` (`joinPath`), `path.parent`
  is `List.dropLast`, `path / x` is `· ++ [x]`.  This matches pathlib for
  the relative/absolute paths the checker manipulates.
* The mutable `config_lookup` dict is an association list threaded through
  results; an insertion is a cons.  Keys are policy-file paths (Python keys
  the dict by `str(path)`; component lists and their joined strings are in
  bijection for slash-free components, so the component list is used
  directly).
* The filesystem is an association list from a file path to the result of
  `json.loads` on its text: `some pol` for a well-formed policy object,
  `none` for a file whose text is not valid JSON (where the real
  `json.loads` raises).  A path absent from the list does not exist.
* The `marisa_trie.Trie` is a list of the inserted keys;
  `trie.prefixes(s)` is the sublist of keys that are string prefixes of
  `s`, and `trie.keys()` is the key list.
* Python recursion is given explicit fuel; `none` as the outer result
  means the fuel ran out, i.e. the Python call would not have returned
  within that recursion depth.
-/

namespace ImportEmbargo

/-- The dot separator of dotted module paths. -/
def SEP : Char := '.'

/-- The policy file name `__embargo__.json`. -/
def embargoName : List Char := ("__embargo__.json").data

/-- A `pathlib.Path`, as its list of components. -/
abbrev PathC := List (List Char)

/-- `str(path)`: components joined with `/`. -/
def joinPath (p : PathC) : List Char := List.intercalate [('/' : Char)] p

/-- `s.replace("/", ".")` for a string with single-character find/replace. -/
def slashToDot (s : List Char) : List Char :=
  s.map (fun c => if c = '/' then SEP else c)

/-- `s.replace(".py", "")`: Python `str.replace` scans left to right and
removes every (non-overlapping) occurrence of `".py"`, not only a trailing
suffix. -/
def pyStrip : List Char → List Char
  | '.' :: 'p' :: 'y' :: rest => pyStrip rest
  | c :: rest => c :: pyStrip rest
  | [] => []

/-- Association-list lookup, modelling `dict.get` / `in`. -/
def alookup {α β : Type} [DecidableEq α] : List (α × β) → α → Option β
  | [], _ => none
  | (k, v) :: rest, key => if k = key then some v else alookup rest key

/-- Splitting a string at `.`, keeping empty pieces. -/
def splitOnDot : List Char → List (List Char)
  | [] => [[]]
  | c :: rest =>
    if c = SEP then [] :: splitOnDot rest
    else
      match splitOnDot rest with
      | [] => [[c]]
      | r :: rs => (c :: r) :: rs

/-- `ModuleTreeBuildingMode` from `core.py`. -/
inductive ModuleTreeBuildingMode where
  | IMPORT
  | EXPORT
  | BYPASS
deriving DecidableEq

/-- `Config` from `core.py`: the three `(trie, is_empty)` pairs (one per
mode, the dict `allowed` always receives all three keys) and the policy
file path used for diagnostics. -/
structure Config where
  importAllowed : List (List Char) × Bool
  exportAllowed : List (List Char) × Bool
  bypassAllowed : List (List Char) × Bool
  path : List Char
deriving DecidableEq

/-- `config.allowed[mode]`. -/
def Config.allowed (c : Config) : ModuleTreeBuildingMode → List (List Char) × Bool
  | .IMPORT => c.importAllowed
  | .EXPORT => c.exportAllowed
  | .BYPASS => c.bypassAllowed

/-- The parsed JSON object of a policy file: the three optional keys
`allowed_import_modules`, `allowed_export_modules`,
`bypass_export_check_for_modules`. -/
structure Policy where
  allowed_import_modules : Option (List (List Char))
  allowed_export_modules : Option (List (List Char))
  bypass_export_check_for_modules : Option (List (List Char))
deriving DecidableEq

/-- The cache `config_lookup`, keyed by the policy file path. -/
abbrev ConfigLookup := List (PathC × Config)

/-- The filesystem: policy-file path to `json.loads` outcome
(`none` = file exists but its text is not valid JSON). -/
abbrev FS := List (PathC × Option Policy)

/-- One key of the parsed JSON turned into a `(trie, is_empty)` pair,
as in `get_package_config` lines 75-82: an absent key gives the empty
trie with the `True` flag; a present list is inserted with a trailing
`.` on every entry and the `False` flag. -/
def buildAllowed : Option (List (List Char)) → List (List Char) × Bool
  | none => ([], true)
  | some xs => (xs.map (fun x => x ++ [SEP]), false)

/-- The `Config` built from a parsed policy file
(`get_package_config` lines 66-82). -/
def buildConfig (path : List Char) (pol : Policy) : Config where
  importAllowed := buildAllowed pol.allowed_import_modules
  exportAllowed := buildAllowed pol.allowed_export_modules
  bypassAllowed := buildAllowed pol.bypass_export_check_for_modules
  path := path

/-- Outcome of `get_package_config`: either the `json.loads` exception
propagates (carrying the cache state, which the raise leaves untouched),
or the function returns `Config | None` together with the cache state. -/
inductive GPCOutcome where
  | raised : ConfigLookup → GPCOutcome
  | found : Option Config → ConfigLookup → GPCOutcome
deriving DecidableEq

/-- `get_package_config(directory_path, root_path, config_lookup)` with
explicit recursion fuel (outer `none` = the recursion did not return
within `fuel` steps).  Mirrors lines 51-84: cache probe on
`directory_path / "__embargo__.json"`, then existence test, the
`directory_path == root_path` base case, recursion into the parent,
`json.loads` (a malformed file raises), `Config` construction and cache
insertion. -/
def get_package_config :
    Nat → PathC → PathC → ConfigLookup → FS → Option GPCOutcome
  | 0, _, _, _, _ => none
  | fuel + 1, directory_path, root_path, config_lookup, fs =>
    let potential_embargo_file := directory_path ++ [embargoName]
    match alookup config_lookup potential_embargo_file with
    | some cached_config => some (.found (some cached_config) config_lookup)
    | none =>
      match alookup fs potential_embargo_file with
      | none =>
        if directory_path = root_path then some (.found none config_lookup)
        else get_package_config fuel directory_path.dropLast root_path config_lookup fs
      | some none => some (.raised config_lookup)
      | some (some pol) =>
        let config := buildConfig (joinPath potential_embargo_file) pol
        some (.found (some config) ((potential_embargo_file, config) :: config_lookup))

/-- `is_operation_allowed(imported_module, allow)` (lines 100-120):
`allow[1]` (list absent) means always allowed; otherwise the trie is
probed with the candidate plus a trailing dot, and the operation is
allowed when at least one stored key is a string prefix of it. -/
def is_operation_allowed (imported_module : List Char)
    (allow : List (List Char) × Bool) : Bool :=
  if allow.2 then true
  else 0 < (allow.1.filter (fun p => p.isPrefixOf (imported_module ++ [SEP]))).length

/-- `build_path_from_import(module_import, root_path)` (lines 39-44):
`root_path / Path(module_import.replace(".", "/"))`.  In the component
model the slash-separated string becomes its non-empty pieces (pathlib
drops empty components). -/
def build_path_from_import (module_import : List Char) (root_path : PathC) : PathC :=
  root_path ++ (splitOnDot module_import).filter (fun x => x ≠ [])

/-- `build_module_from_path(path, root_path)` (lines 47-48):
`str(path.relative_to(root_path)).replace("/", ".").replace(".py", "")`.
Modelled for `path` below `root_path` (elsewhere `Path.relative_to`
raises `ValueError`): the relative part is the components after
`root_path`. -/
def build_module_from_path (path : PathC) (root_path : PathC) : List Char :=
  pyStrip (slashToDot (joinPath (path.drop root_path.length)))

/-- `x.rstrip(".")`: removes every trailing dot. -/
def rstripDot (s : List Char) : List Char :=
  (s.reverse.dropWhile (fun c => c = SEP)).reverse

/-- Python `repr` of a string without quotes or escapes inside:
the text between single quotes. -/
def pyReprStr (s : List Char) : List Char :=
  Char.ofNat 39 :: s ++ [Char.ofNat 39]

/-- Python `str` of a `list[str]`, as in
`f"Allowed exports: {human_readable_allowed}"`. -/
def pyReprList (xs : List (List Char)) : List Char :=
  ('[' : Char) :: List.intercalate (", ").data (xs.map pyReprStr) ++ [(']' : Char)]

/-- The part of an `ast.ImportFrom` node the checker reads. -/
structure ImportFrom where
  module : Option (List Char)

/-- Outcome of `check_for_allowed`: a propagated configuration error
(with the cache state), the `Exception("Invalid mode")` raise, or the
violation list together with the cache state. -/
inductive CheckResult where
  | raised : ConfigLookup → CheckResult
  | invalidMode : CheckResult
  | ok : List (List Char) → ConfigLookup → CheckResult
deriving DecidableEq

/-- `check_for_allowed(mode, file, app_root_path, config_lookup, node)`
(lines 136-193), with the same fuel discipline as `get_package_config`.
Mirrors the source order: mode dispatch to pick `actual_path`, policy
resolution for `actual_path.parent`, the `config is None` and
`node.module is None` early returns (`config.allowed[mode] is None`
never holds since the dict is always fully populated), the bypass test
in `EXPORT` mode with the bypass trie's empty-flag forced to `False`,
the allow test on `node.module`, and the three violation strings. -/
def check_for_allowed (fuel : Nat) (mode : ModuleTreeBuildingMode)
    (file : PathC) (app_root_path : PathC) (config_lookup : ConfigLookup)
    (fs : FS) (node : ImportFrom) : Option CheckResult :=
  match mode with
  | .BYPASS => some .invalidMode
  | _ =>
    let actual_path : PathC :=
      match mode with
      | .EXPORT => build_path_from_import (node.module.getD []) app_root_path
      | _ => file
    match get_package_config fuel actual_path.dropLast app_root_path config_lookup fs with
    | none => none
    | some (.raised l) => some (.raised l)
    | some (.found none l) => some (.ok [] l)
    | some (.found (some config) l) =>
      match node.module with
      | none => some (.ok [] l)
      | some m =>
        if mode = .EXPORT &&
            is_operation_allowed (build_module_from_path file app_root_path)
              ((config.allowed .BYPASS).1, false) then
          some (.ok [] l)
        else if is_operation_allowed m (config.allowed mode) then
          some (.ok [] l)
        else
          some (.ok
            [ joinPath file ++ (": ").data ++ m,
              (if mode = .EXPORT then ("Allowed exports: ").data
               else ("Allowed imports: ").data) ++
                pyReprList ((config.allowed mode).1.map rstripDot),
              ("Config file: ").data ++ config.path ++ ("\n").data ] l)

/-- Projection used to state facts about the violation list of a check. -/
def checkViolations : Option CheckResult → Option (List (List Char))
  | some (.ok vs _) => some vs
  | _ => none

end ImportEmbargo

namespace ImportEmbargo

/-! ### Concrete scenario data

Scenario B of the specification: application root `r`, policy file
`r/pkg/__embargo__.json`, file `r/pkg/other.py` importing `pkg.db`.
`polB` is `{"allowed_export_modules": ["pkg.worker"]}`; `polB1` replaces
the list by `["pkg.other"]` (the importer's own module name); `polC`
adds `"bypass_export_check_for_modules": ["pkg.other"]` (scenario C). -/

def rootB : PathC := [("r").data]

def fileB : PathC := [("r").data, ("pkg").data, ("other.py").data]

def pefB : PathC := [("r").data, ("pkg").data, ("__embargo__.json").data]

def polB : Policy := ⟨none, some [("pkg.worker").data], none⟩

def fsB : FS := [(pefB, some polB)]

def cfgB : Config := buildConfig (joinPath pefB) polB

def polB1 : Policy := ⟨none, some [("pkg.other").data], none⟩

def fsB1 : FS := [(pefB, some polB1)]

def polC : Policy := ⟨none, some [("pkg.worker").data], some [("pkg.other").data]⟩

def fsC : FS := [(pefB, some polC)]

def cfgC : Config := buildConfig (joinPath pefB) polC

/-- An all-keys-absent policy object `{}`. -/
def polN : Policy := ⟨none, none, none⟩

/-- A root directory whose own policy file has text that is not valid JSON. -/
def fsBad : FS := [([("r").data, embargoName], none)]

def fileBad : PathC := [("r").data, ("mod.py").data]

def rootW : PathC := [("r").data]

def suffixW : PathC := [("a").data, ("b").data]

/-- Decidable form of "no policy file and no cache entry anywhere on the
chain from `root ++ suffix` up to `root`": every candidate
`__embargo__.json` path on the chain is absent from the filesystem and
from the cache. -/
def chainClear (root suffix : PathC) (lookup : ConfigLookup) (fs : FS) : Bool :=
  (List.range (suffix.length + 1)).all fun k =>
    (alookup fs ((root ++ suffix.take k) ++ [embargoName])).isNone &&
    (alookup lookup ((root ++ suffix.take k) ++ [embargoName])).isNone

/-! ### Helper lemmas -/

/-- Appending the same sentinel on both sides makes the string-prefix
test segment-aligned. -/
theorem snoc_prefix_snoc_iff (d : Char) :
    ∀ (p c : List Char), ((p ++ [d]) <+: (c ++ [d]) ↔ c = p ∨ (p ++ [d]) <+: c) := by
  intro p
  induction p with
  | nil =>
    intro c
    cases c with
    | nil => simp
    | cons x c' => simp [List.cons_prefix_cons]
  | cons a p' ih =>
    intro c
    cases c with
    | nil => simp [List.cons_prefix_cons, List.prefix_nil]
    | cons x c' =>
      simp only [List.cons_append, List.cons_prefix_cons, ih c', List.cons.injEq]
      tauto

/-- A successful `get_package_config` run either leaves the cache alone or
prepends exactly one entry, whose key is a policy file that exists on the
filesystem. -/
theorem gpc_cache_growth (fuel : Nat) :
    ∀ (dir root : PathC) (lookup : ConfigLookup) (fs : FS) (r : Option Config)
      (l : ConfigLookup),
    get_package_config fuel dir root lookup fs = some (.found r l) →
    l = lookup ∨
      ∃ key cfg pol, l = (key, cfg) :: lookup ∧ alookup fs key = some (some pol) := by
  induction fuel with
  | zero =>
    intro dir root lookup fs r l h
    simp [get_package_config] at h
  | succ f ih =>
    intro dir root lookup fs r l h
    simp only [get_package_config] at h
    cases hcl : alookup lookup (dir ++ [embargoName]) with
    | some cached =>
      rw [hcl] at h
      simp only [Option.some.injEq, GPCOutcome.found.injEq] at h
      exact Or.inl h.2.symm
    | none =>
      rw [hcl] at h
      cases hfs : alookup fs (dir ++ [embargoName]) with
      | none =>
        rw [hfs] at h
        by_cases hroot : dir = root
        · rw [if_pos hroot] at h
          simp only [Option.some.injEq, GPCOutcome.found.injEq] at h
          exact Or.inl h.2.symm
        · rw [if_neg hroot] at h
          exact ih _ _ _ _ _ _ h
      | some v =>
        rw [hfs] at h
        cases v with
        | none => simp at h
        | some pol =>
          simp only [Option.some.injEq, GPCOutcome.found.injEq] at h
          exact Or.inr ⟨dir ++ [embargoName], buildConfig (joinPath (dir ++ [embargoName])) pol,
            pol, h.2.symm, hfs⟩

/-- Core of the upward-search property, with the chain hypotheses in
universally quantified form. -/
theorem gpc_chain_clear_aux (root : PathC) (suffix : PathC) (lookup : ConfigLookup)
    (fs : FS)
    (hfs : ∀ k, k ≤ suffix.length →
      alookup fs ((root ++ suffix.take k) ++ [embargoName]) = none)
    (hc : ∀ k, k ≤ suffix.length →
      alookup lookup ((root ++ suffix.take k) ++ [embargoName]) = none) :
    get_package_config (suffix.length + 1) (root ++ suffix) root lookup fs =
      some (.found none lookup) := by
  induction suffix using List.reverseRecOn with
  | nil =>
    have h1 := hfs 0 (by simp)
    have h2 := hc 0 (by simp)
    simp only [List.take_nil, List.append_nil] at h1 h2
    simp [get_package_config, h1, h2]
  | append_singleton s x ih =>
    have hlen : (s ++ [x]).length = s.length + 1 := by simp
    have htake : (s ++ [x]).take (s.length + 1) = s ++ [x] := by
      rw [← hlen]; exact List.take_length (s ++ [x])
    have h1 := hfs (s.length + 1) (by simp)
    have h2 := hc (s.length + 1) (by simp)
    rw [htake] at h1 h2
    have hdrop : (root ++ (s ++ [x])).dropLast = root ++ s := by
      rw [← List.append_assoc]; exact List.dropLast_concat
    have hne : ¬(root ++ (s ++ [x]) = root) := by
      simp [List.append_right_eq_self]
    rw [hlen]
    simp only [get_package_config, h1, h2, if_neg hne, hdrop]
    exact ih
      (fun k hk => by
        have := hfs k (by simp; omega)
        rwa [List.take_append_of_le_length hk] at this)
      (fun k hk => by
        have := hc k (by simp; omega)
        rwa [List.take_append_of_le_length hk] at this)

/-- Fuel one larger than the distance to `root` always suffices: seen from
any directory at or below `root`, `get_package_config` returns. -/
theorem gpc_fuel_sufficient (root : PathC) :
    ∀ (suffix : PathC) (lookup : ConfigLookup) (fs : FS),
    (get_package_config (suffix.length + 1) (root ++ suffix) root lookup fs).isSome = true := by
  intro suffix
  induction suffix using List.reverseRecOn with
  | nil =>
    intro lookup fs
    simp only [List.append_nil, List.length_nil, get_package_config]
    cases h : alookup lookup (root ++ [embargoName])
    · cases h2 : alookup fs (root ++ [embargoName])
      · simp [h, h2]
      · rename_i v
        cases v <;> simp [h, h2]
    · simp [h]
  | append_singleton s x ih =>
    intro lookup fs
    have hlen : (s ++ [x]).length = s.length + 1 := by simp
    have hdrop : (root ++ (s ++ [x])).dropLast = root ++ s := by
      rw [← List.append_assoc]; exact List.dropLast_concat
    have hne : ¬(root ++ (s ++ [x]) = root) := by
      simp [List.append_right_eq_self]
    rw [hlen]
    simp only [get_package_config]
    cases h : alookup lookup (root ++ (s ++ [x]) ++ [embargoName])
    · cases h2 : alookup fs (root ++ (s ++ [x]) ++ [embargoName])
      · simp only [h, h2, if_neg hne, hdrop]
        exact ih lookup fs
      · rename_i v
        cases v <;> simp [h, h2]
    · simp [h]

/-- On the empty directory (the parent-chain fixpoint), with no policy
files and an empty cache and a root that is never reached, the recursion
consumes any amount of fuel without returning. -/
theorem gpc_nil_out (fuel : Nat) :
    get_package_config fuel [] [("r").data, ("a").data] [] [] = none := by
  induction fuel with
  | zero => rfl
  | succ f ih =>
    simp only [get_package_config, alookup]
    rw [if_neg (by decide)]
    simpa using ih

end ImportEmbargo

namespace ImportEmbargo

/-! ### Claim theorems -/

/-- C1 (counterexample): the export-direction check does not test the
importing file's own module name against the export allow-list.  With the
policy next to `pkg/db.py` set to `{"allowed_export_modules":
["pkg.other"]}` — exactly the importer's dotted name — checking
`r/pkg/other.py` importing `pkg.db` still produces a violation, and the
violation's first line names the imported module `pkg.db`, not the
importer `pkg.other`. -/
theorem c1_export_check_importer_refuted :
    checkViolations (check_for_allowed 2 .EXPORT fileB rootB [] fsB1 ⟨some ("pkg.db").data⟩)
      ≠ some [] ∧
    (checkViolations
        (check_for_allowed 2 .EXPORT fileB rootB [] fsB1 ⟨some ("pkg.db").data⟩)).bind
      List.head? = some (("r/pkg/other.py: pkg.db").data) := by
  constructor
  · decide
  · decide

/-- C1 (amended): in the export-direction check, once the resolved Config
is found and the bypass test on the importing file's module name fails,
the module tested against the export allow-list is the imported module's
name `node.module`, and the emitted violation's first line names that
imported module. -/
theorem c1_export_check_tests_imported_module (fuel : Nat) (file root : PathC)
    (lookup l : ConfigLookup) (fs : FS) (m : List Char) (config : Config)
    (hgpc : get_package_config fuel (build_path_from_import m root).dropLast root lookup fs
      = some (.found (some config) l))
    (hbyp : is_operation_allowed (build_module_from_path file root)
      ((config.allowed .BYPASS).1, false) = false) :
    check_for_allowed fuel .EXPORT file root lookup fs ⟨some m⟩ =
      some (.ok
        (if is_operation_allowed m (config.allowed .EXPORT) then []
         else
           [ joinPath file ++ (": ").data ++ m,
             ("Allowed exports: ").data ++
               pyReprList ((config.allowed .EXPORT).1.map rstripDot),
             ("Config file: ").data ++ config.path ++ ("\n").data ]) l) := by
  simp only [check_for_allowed, Option.getD_some, hgpc, hbyp, Bool.and_false]
  cases hE : is_operation_allowed m (config.allowed .EXPORT) <;> simp [hE]

/-- Witness for C1 on scenario B: root `r`, policy
`{"allowed_export_modules": ["pkg.worker"]}` next to `pkg/db.py`, file
`r/pkg/other.py` importing `pkg.db`. -/
theorem c1_export_check_tests_imported_module_witness :
    (get_package_config 2 (build_path_from_import ("pkg.db").data rootB).dropLast rootB [] fsB
      = some (.found (some cfgB) [(pefB, cfgB)])) ∧
    (is_operation_allowed (build_module_from_path fileB rootB)
      ((cfgB.allowed .BYPASS).1, false) = false) ∧
    check_for_allowed 2 .EXPORT fileB rootB [] fsB ⟨some ("pkg.db").data⟩ =
      some (.ok
        (if is_operation_allowed ("pkg.db").data (cfgB.allowed .EXPORT) then []
         else
           [ joinPath fileB ++ (": ").data ++ ("pkg.db").data,
             ("Allowed exports: ").data ++
               pyReprList ((cfgB.allowed .EXPORT).1.map rstripDot),
             ("Config file: ").data ++ cfgB.path ++ ("\n").data ]) [(pefB, cfgB)]) :=
  ⟨by decide, by decide,
    c1_export_check_tests_imported_module 2 fileB rootB [] [(pefB, cfgB)] fsB
      (("pkg.db").data) cfgB (by decide) (by decide)⟩

/-- C2 (code bug): `build_module_from_path` uses
`str.replace(".py", "")`, which removes every occurrence of `.py`, not
only the trailing source-file suffix.  The file `r/pkg/pyth.py` under
root `r` is mapped to `pkgth` instead of `pkg.pyth`; a name with no
internal `.py` occurrence, such as `r/pkg/other.py`, is mapped as the
specification describes. -/
theorem c2_replace_py_everywhere :
    build_module_from_path [("r").data, ("pkg").data, ("pyth.py").data] [("r").data]
      = ("pkgth").data ∧
    build_module_from_path [("r").data, ("pkg").data, ("other.py").data] [("r").data]
      = ("pkg.other").data := by
  constructor
  · decide
  · decide

/-- C3: a restricted PrefixSet holding the single prefix `p` accepts a
candidate `c` exactly when `c = p` or `c` starts with `p` followed by the
dot separator; concretely `a.b` matches `a.b` and `a.b.c` but not
`a.bc`, `b`, or `a.c`. -/
theorem c3_single_prefix_segment_aligned :
    (∀ p c : List Char,
      is_operation_allowed c (buildAllowed (some [p])) = true ↔
        (c = p ∨ (p ++ [SEP]) <+: c)) ∧
    is_operation_allowed ("a.b").data (buildAllowed (some [("a.b").data])) = true ∧
    is_operation_allowed ("a.b.c").data (buildAllowed (some [("a.b").data])) = true ∧
    is_operation_allowed ("a.bc").data (buildAllowed (some [("a.b").data])) = false ∧
    is_operation_allowed ("b").data (buildAllowed (some [("a.b").data])) = false ∧
    is_operation_allowed ("a.c").data (buildAllowed (some [("a.b").data])) = false := by
  refine ⟨fun p c => ?_, by decide, by decide, by decide, by decide, by decide⟩
  have hred : is_operation_allowed c (buildAllowed (some [p])) =
      (p ++ [SEP]).isPrefixOf (c ++ [SEP]) := by
    simp only [buildAllowed, is_operation_allowed, List.map_cons, List.map_nil,
      List.filter_cons, List.filter_nil]
    cases h : (p ++ [SEP]).isPrefixOf (c ++ [SEP]) <;> simp [h]
  rw [hred, List.isPrefixOf_iff_prefix, snoc_prefix_snoc_iff]

/-- C4: a mode's pair is the unrestricted one exactly when the JSON key
was absent; the unrestricted pair accepts every candidate, including the
empty string, while the pair built from an explicitly present empty list
accepts nothing; and the three Config slots come from the three keys. -/
theorem c4_absent_key_unrestricted_empty_list_restricted :
    (∀ v : Option (List (List Char)), (buildAllowed v).2 = true ↔ v = none) ∧
    (∀ c : List Char, is_operation_allowed c (buildAllowed none) = true) ∧
    is_operation_allowed [] (buildAllowed none) = true ∧
    (∀ c : List Char, is_operation_allowed c (buildAllowed (some [])) = false) ∧
    (∀ (p : List Char) (pol : Policy),
      (buildConfig p pol).allowed .IMPORT = buildAllowed pol.allowed_import_modules ∧
      (buildConfig p pol).allowed .EXPORT = buildAllowed pol.allowed_export_modules ∧
      (buildConfig p pol).allowed .BYPASS = buildAllowed pol.bypass_export_check_for_modules) := by
  refine ⟨fun v => ?_, fun c => rfl, rfl, fun c => rfl, fun p pol => ⟨rfl, rfl, rfl⟩⟩
  cases v <;> simp [buildAllowed]

/-- C5: when the importing file's module name matches the resolved
Config's bypass list (the test `check_for_allowed` runs in EXPORT mode),
the check returns no violations, with no condition whatsoever on the
export allow-list. -/
theorem c5_bypass_short_circuits_export_allow (fuel : Nat) (file root : PathC)
    (lookup l : ConfigLookup) (fs : FS) (m : List Char) (config : Config)
    (hgpc : get_package_config fuel (build_path_from_import m root).dropLast root lookup fs
      = some (.found (some config) l))
    (hbyp : is_operation_allowed (build_module_from_path file root)
      ((config.allowed .BYPASS).1, false) = true) :
    check_for_allowed fuel .EXPORT file root lookup fs ⟨some m⟩ = some (.ok [] l) := by
  simp only [check_for_allowed, Option.getD_some, hgpc, hbyp, Bool.and_true]
  simp

/-- Witness for C5 on scenario C: scenario B's policy plus
`"bypass_export_check_for_modules": ["pkg.other"]` gives zero export
violations, although `pkg.db` is still rejected by `allowed_export_modules`. -/
theorem c5_bypass_short_circuits_export_allow_witness :
    (get_package_config 2 (build_path_from_import ("pkg.db").data rootB).dropLast rootB [] fsC
      = some (.found (some cfgC) [(pefB, cfgC)])) ∧
    (is_operation_allowed (build_module_from_path fileB rootB)
      ((cfgC.allowed .BYPASS).1, false) = true) ∧
    check_for_allowed 2 .EXPORT fileB rootB [] fsC ⟨some ("pkg.db").data⟩ =
      some (.ok [] [(pefB, cfgC)]) :=
  ⟨by decide, by decide,
    c5_bypass_short_circuits_export_allow 2 fileB rootB [] [(pefB, cfgC)] fsC
      (("pkg.db").data) cfgC (by decide) (by decide)⟩

/-- C6: when `bypass_export_check_for_modules` is absent from the policy,
the bypass test of the export-direction check — which forces the
unrestricted flag to `false` — matches no importing module at all, in
contrast to an absent `allowed_export_modules`, whose test accepts every
module. -/
theorem c6_absent_bypass_matches_nothing (pol : Policy) (p m : List Char)
    (hb : pol.bypass_export_check_for_modules = none) :
    is_operation_allowed m (((buildConfig p pol).allowed .BYPASS).1, false) = false ∧
    (pol.allowed_export_modules = none →
      is_operation_allowed m ((buildConfig p pol).allowed .EXPORT) = true) := by
  constructor
  · simp [buildConfig, Config.allowed, buildAllowed, hb, is_operation_allowed]
  · intro he
    simp [buildConfig, Config.allowed, buildAllowed, he, is_operation_allowed]

/-- Witness for C6 on the empty policy object. -/
theorem c6_absent_bypass_matches_nothing_witness :
    polN.bypass_export_check_for_modules = none ∧
    (is_operation_allowed ("pkg.other").data
        (((buildConfig (("cfg").data) polN).allowed .BYPASS).1, false) = false ∧
      (polN.allowed_export_modules = none →
        is_operation_allowed ("pkg.other").data
          ((buildConfig (("cfg").data) polN).allowed .EXPORT) = true)) :=
  ⟨rfl, c6_absent_bypass_matches_nothing polN (("cfg").data) (("pkg.other").data) rfl⟩

/-- C7: when no directory on the chain from `root ++ suffix` up to and
including `root` holds a policy file, and the cache holds no entry for
any of the candidate policy-file paths, `get_package_config` returns
`None` (with the cache untouched); fuel one larger than the chain length
suffices, so the search visits only the ancestors up to `root`. -/
theorem c7_no_policy_between_dir_and_root_returns_none (root suffix : PathC)
    (lookup : ConfigLookup) (fs : FS)
    (h : chainClear root suffix lookup fs = true) :
    get_package_config (suffix.length + 1) (root ++ suffix) root lookup fs =
      some (.found none lookup) := by
  have hall : ∀ k, k ≤ suffix.length →
      alookup fs ((root ++ suffix.take k) ++ [embargoName]) = none ∧
      alookup lookup ((root ++ suffix.take k) ++ [embargoName]) = none := by
    intro k hk
    have := (List.all_eq_true.mp h) k (List.mem_range.mpr (Nat.lt_succ_of_le hk))
    simpa [Option.isNone_iff_eq_none, Bool.and_eq_true] using this
  exact gpc_chain_clear_aux root suffix lookup fs
    (fun k hk => (hall k hk).1) (fun k hk => (hall k hk).2)

/-- Witness for C7: root `r`, directory `r/a/b`, empty filesystem, empty
cache. -/
theorem c7_no_policy_between_dir_and_root_returns_none_witness :
    chainClear rootW suffixW [] [] = true ∧
    get_package_config (suffixW.length + 1) (rootW ++ suffixW) rootW [] [] =
      some (.found none []) :=
  ⟨by decide, c7_no_policy_between_dir_and_root_returns_none rootW suffixW [] [] (by decide)⟩

/-- C8: `get_package_config` is idempotent with respect to the cache —
if a call returns a Config and leaves the cache in state `l`, calling it
again on the same directory with cache `l` returns the identical Config
and leaves `l` unchanged, so the second call inserts nothing and
re-parses nothing: the cached entry, keyed by the resolved policy file's
path, is served instead. -/
theorem c8_resolve_idempotent (fuel : Nat) :
    ∀ (dir root : PathC) (lookup l : ConfigLookup) (fs : FS) (c : Config),
    get_package_config fuel dir root lookup fs = some (.found (some c) l) →
    get_package_config fuel dir root l fs = some (.found (some c) l) := by
  induction fuel with
  | zero =>
    intro dir root lookup l fs c h
    simp [get_package_config] at h
  | succ f ih =>
    intro dir root lookup l fs c h
    simp only [get_package_config] at h ⊢
    cases hcl : alookup lookup (dir ++ [embargoName]) with
    | some cached =>
      rw [hcl] at h
      simp only [Option.some.injEq, GPCOutcome.found.injEq, Option.some.injEq] at h
      obtain ⟨hc1, hl⟩ := h
      subst hl
      rw [hcl, hc1]
    | none =>
      rw [hcl] at h
      cases hfs : alookup fs (dir ++ [embargoName]) with
      | none =>
        rw [hfs] at h
        by_cases hroot : dir = root
        · rw [if_pos hroot] at h
          simp at h
        · rw [if_neg hroot] at h
          have hl : alookup l (dir ++ [embargoName]) = none := by
            rcases gpc_cache_growth f _ _ _ _ _ _ h with heq | ⟨key, cfg, pol, heq, hkey⟩
            · rw [heq]; exact hcl
            · rw [heq]
              have hne : ¬(key = dir ++ [embargoName]) := by
                intro hk; rw [hk, hfs] at hkey; exact Option.noConfusion hkey
              simp only [alookup, if_neg hne]
              exact hcl
          rw [hl]
          rw [if_neg hroot]
          exact ih _ _ _ _ _ _ h
      | some v =>
        rw [hfs] at h
        cases v with
        | none => simp at h
        | some pol =>
          simp only [Option.some.injEq, GPCOutcome.found.injEq, Option.some.injEq] at h
          obtain ⟨hc1, hl⟩ := h
          have : alookup l (dir ++ [embargoName]) =
              some (buildConfig (joinPath (dir ++ [embargoName])) pol) := by
            rw [← hl]
            simp [alookup]
          rw [this, hc1, ← hl]

/-- Witness for C8 on scenario B's policy store: resolving `r/pkg` fills
the cache; resolving again with that cache returns the same Config and
the same cache. -/
theorem c8_resolve_idempotent_witness :
    (get_package_config 2 [("r").data, ("pkg").data] rootB [] fsB
      = some (.found (some cfgB) [(pefB, cfgB)])) ∧
    get_package_config 2 [("r").data, ("pkg").data] rootB [(pefB, cfgB)] fsB
      = some (.found (some cfgB) [(pefB, cfgB)]) :=
  ⟨by decide,
    c8_resolve_idempotent 2 [("r").data, ("pkg").data] rootB [] [(pefB, cfgB)] fsB cfgB
      (by decide)⟩

/-- C9: a policy file whose text is not valid JSON makes
`get_package_config` raise: the outcome is the propagated error, not
`None` and not a Config, the cache is left exactly as it was, and a
checker call that resolves this directory propagates the error instead of
producing violations. -/
theorem c9_malformed_policy_raises (fuel : Nat) (dir root : PathC)
    (lookup : ConfigLookup) (fs : FS) (file : PathC) (node : ImportFrom)
    (hc : alookup lookup (dir ++ [embargoName]) = none)
    (hfs : alookup fs (dir ++ [embargoName]) = some none)
    (hfile : file.dropLast = dir) :
    get_package_config (fuel + 1) dir root lookup fs = some (.raised lookup) ∧
    check_for_allowed (fuel + 1) .IMPORT file root lookup fs node =
      some (.raised lookup) := by
  have h1 : get_package_config (fuel + 1) dir root lookup fs = some (.raised lookup) := by
    simp [get_package_config, hc, hfs]
  refine ⟨h1, ?_⟩
  simp only [check_for_allowed, hfile, h1]

/-- Witness for C9: a malformed `r/__embargo__.json` aborts the check of
`r/mod.py`. -/
theorem c9_malformed_policy_raises_witness :
    (alookup ([] : ConfigLookup) (rootB ++ [embargoName]) = none) ∧
    (alookup fsBad (rootB ++ [embargoName]) = some none) ∧
    (fileBad.dropLast = rootB) ∧
    (get_package_config 1 rootB rootB [] fsBad = some (.raised []) ∧
      check_for_allowed 1 .IMPORT fileBad rootB [] fsBad ⟨some ("x").data⟩ =
        some (.raised [])) :=
  ⟨rfl, by decide, by decide,
    c9_malformed_policy_raises 0 rootB rootB [] fsBad fileBad ⟨some ("x").data⟩
      rfl (by decide) (by decide)⟩

/-- C10: for a directory written as `root ++ suffix` — root itself or any
descendant — `get_package_config` returns within fuel `suffix.length + 1`,
whatever the cache and filesystem; for the concrete directory `x`, which
is outside the subtree of root `r/a`, with no policy files and an empty
cache, no amount of fuel makes the recursion return. -/
theorem c10_termination_at_or_below_root :
    (∀ (root suffix : PathC) (lookup : ConfigLookup) (fs : FS),
      (get_package_config (suffix.length + 1) (root ++ suffix) root lookup fs).isSome = true) ∧
    (∀ fuel : Nat,
      get_package_config fuel [("x").data] [("r").data, ("a").data] [] [] = none) := by
  refine ⟨fun root suffix lookup fs => gpc_fuel_sufficient root suffix lookup fs,
    fun fuel => ?_⟩
  cases fuel with
  | zero => rfl
  | succ f =>
    simp only [get_package_config, alookup]
    rw [if_neg (by decide)]
    simpa using gpc_nil_out f

end ImportEmbargo
